import Mathlib

/-!
Verification development for the ADTS stream reader (`src/main.rs`).

The embedding models the seekable file as a byte list plus a cursor
position, the `bitreader` crate as a bit cursor over an in-memory byte
buffer, and the three components of the program: the startcode scanner
(`seek_startcode` / `find_startcode`), the header decoder
(`peek_header`), and one iteration of the frame-walking loop in `main`
(`walk_step`).  Bytes are natural numbers; a real stream has every byte
below 256, and theorems that need this carry it as a hypothesis or use
concrete byte values.
-/

set_option autoImplicit false

namespace StreamReader

/-- A seekable, readable byte source: the underlying bytes together with
the current cursor position (`std::fs::File` restricted to the
operations the program uses). -/
structure FileSt where
  data : List Nat
  pos : Nat
  deriving DecidableEq, Repr

/-- `Read::read_exact` into a buffer of `n` bytes: succeeds iff `n`
bytes remain, returning the bytes read and the advanced file.  On
failure (fewer than `n` bytes left) the Rust call errors; the cursor is
then unspecified, and no caller in this program inspects it. -/
def read_exact (st : FileSt) (n : Nat) : Option (List Nat × FileSt) :=
  if st.pos + n ≤ st.data.length then
    some ((st.data.drop st.pos).take n, ⟨st.data, st.pos + n⟩)
  else
    none

/-- `Seek::seek (SeekFrom::Current off)`: fails iff the target position
is negative, otherwise returns the new position (a `u64`) and the moved
file. -/
def seekCur (st : FileSt) (off : Int) : Option (Nat × FileSt) :=
  let t : Int := (st.pos : Int) + off
  if t < 0 then none else some (t.toNat, ⟨st.data, t.toNat⟩)

/-- `ADTS_HDR_MIN_LEN` from the source. -/
def ADTS_HDR_MIN_LEN : Nat := 7

/-- `ADTS_HDR_MAX_LEN` from the source. -/
def ADTS_HDR_MAX_LEN : Nat := 9

/-- The single error kind of the model of `std::io::Error`.  Every
failure the program's I/O layer produces (short read, bad seek) is such
an error; `seek_startcode` has type `io::Result` and can only fail this
way. -/
inductive IOErr where
  | ioErr
  deriving DecidableEq, Repr

/-- `find_startcode`: position of the first adjacent byte pair with
`b[0] == 0xFF && (b[1] & 0xF0) == 0xF0` among the windows of width 2 of
the buffer (`buf.windows(2).position(..)`). -/
def find_startcode : List Nat → Option Nat
  | b0 :: b1 :: rest =>
    if b0 = 0xFF ∧ b1 &&& 0xF0 = 0xF0 then some 0
    else Option.map (fun n => n + 1) (find_startcode (b1 :: rest))
  | _ => none

/-- The loop body of `seek_startcode`, made total with a fuel
parameter.  Each iteration reads `ADTS_HDR_MAX_LEN = 9` bytes; if the
window has no match it seeks forward by `9 - 4 = 5` from the cursor
(which the read left at the window's end) and repeats; on a match at
window-relative `n` it seeks back by `-(9 - n)` and returns the
resulting position.  Each iteration consumes at least 9 bytes of
remaining stream, so `data.length + 1` fuel is never exhausted. -/
def seek_startcode_go : Nat → FileSt → Except IOErr (Nat × FileSt)
  | 0, _ => .error .ioErr
  | fuel + 1, st =>
    match read_exact st ADTS_HDR_MAX_LEN with
    | none => .error .ioErr
    | some (buffer, st1) =>
      match find_startcode buffer with
      | none =>
        match seekCur st1 ((ADTS_HDR_MAX_LEN : Int) - 4) with
        | none => .error .ioErr
        | some (_, st2) => seek_startcode_go fuel st2
      | some n =>
        match seekCur st1 (-((ADTS_HDR_MAX_LEN : Int) - (n : Int))) with
        | none => .error .ioErr
        | some (p, st3) => .ok (p, st3)

/-- `seek_startcode`: run the scan loop with enough fuel that the fuel
bound is unreachable (the loop reads 9 bytes per iteration, so it
iterates at most `data.length / 9` times before a read fails). -/
def seek_startcode (st : FileSt) : Except IOErr (Nat × FileSt) :=
  seek_startcode_go (st.data.length + 1) st

/-- Big-endian value of a byte buffer. -/
def bufNum (buf : List Nat) : Nat :=
  buf.foldl (fun a b => a * 256 + b) 0

/-- The `w`-bit field of `buf` starting at bit offset `s`, bits counted
MSB-first from the start of the buffer: bits `s .. s+w-1` of the
big-endian value of the buffer. -/
def readBits (buf : List Nat) (s w : Nat) : Nat :=
  bufNum buf / 2 ^ (8 * buf.length - s - w) % 2 ^ w

/-- The `bitreader::BitReader` state: the borrowed buffer and the bit
cursor. -/
structure BitReader where
  buf : List Nat
  pos : Nat
  deriving DecidableEq, Repr

/-- `BitReader::read_u8` / `read_u16` of `w` bits: fails iff fewer than
`w` bits remain. -/
def BitReader.read (r : BitReader) (w : Nat) : Option (Nat × BitReader) :=
  if r.pos + w ≤ 8 * r.buf.length then
    some (readBits r.buf r.pos w, ⟨r.buf, r.pos + w⟩)
  else
    none

/-- `BitReader::skip` of `w` bits. -/
def BitReader.skip (r : BitReader) (w : Nat) : Option BitReader :=
  Option.map Prod.snd (r.read w)

/-- `MPEGVersion` from the source. -/
inductive MPEGVersion where
  | MPEG4
  | MPEG2
  deriving DecidableEq, Repr

/-- `MPEGAudioObjectType` from the source. -/
inductive MPEGAudioObjectType where
  | NULL
  | AAC_MAIN
  | AAC_LC
  | AAC_SSR
  | AAC_LTP
  | SBR
  | AAC_SCALABLE
  | TWIN_VQ
  | CELP
  | LAYER1
  | LAYER2
  | LAYER3
  deriving DecidableEq, Repr

/-- `ADTSHeader` from the source (the retained fields). -/
structure ADTSHeader where
  syncword : Nat
  id : MPEGVersion
  protection_absent : Bool
  profile : MPEGAudioObjectType
  sampling_frequency_index : Nat
  frame_length : Nat
  deriving DecidableEq, Repr

/-- The distinct exit sites of `peek_header`.  In the source every one
of them collapses to `None` (the function returns `Option<ADTSHeader>`);
the model labels each site so that theorems can say which check fired. -/
inductive DecodeReason where
  | ioFailure
  | readerOutOfBits
  | invalidSyncword
  | invalidMpegVersion
  | invalidProfile
  deriving DecidableEq, Repr

/-- A `reader.read_*(w).ok()?` step: a `BitReader` read with the
failure mapped to the exit-site label. -/
def rread (r : BitReader) (w : Nat) : Except DecodeReason (Nat × BitReader) :=
  match r.read w with
  | none => .error .readerOutOfBits
  | some x => .ok x

/-- A `reader.skip(w).ok()?` step. -/
def rskip (r : BitReader) (w : Nat) : Except DecodeReason BitReader :=
  match r.skip w with
  | none => .error .readerOutOfBits
  | some r2 => .ok r2

/-- The `match` on the MPEG-version bit in `peek_header`
(`0 => MPEG4, 1 => MPEG2, _ => return None`). -/
def mpegOfCode : Nat → Option MPEGVersion
  | 0 => some .MPEG4
  | 1 => some .MPEG2
  | _ => none

/-- The `match` on the profile code in `peek_header`
(`0 => AAC_MAIN, .., 7 => CELP, 31 => LAYER1, 32 => LAYER2,
33 => LAYER3, _ => return None`). -/
def profileOfCode : Nat → Option MPEGAudioObjectType
  | 0 => some .AAC_MAIN
  | 1 => some .AAC_LC
  | 2 => some .AAC_SSR
  | 3 => some .AAC_LTP
  | 4 => some .SBR
  | 5 => some .AAC_SCALABLE
  | 6 => some .TWIN_VQ
  | 7 => some .CELP
  | 31 => some .LAYER1
  | 32 => some .LAYER2
  | 33 => some .LAYER3
  | _ => none

/-- The bitfield part of `peek_header`: the sequence of reads and skips
performed on the 7-byte buffer, in source order, with each early
`return None` labelled by its exit site.  Pure in the buffer — the file
is not touched between the `read_exact` and the final seek. -/
def decode_fields (buffer : List Nat) : Except DecodeReason ADTSHeader :=
  match rread ⟨buffer, 0⟩ 12 with
  | .error e => .error e
  | .ok (syncword, r) =>
    if syncword ≠ 0xFFF then .error .invalidSyncword
    else
      match rread r 1 with
      | .error e => .error e
      | .ok (vVer, r) =>
        match mpegOfCode vVer with
        | none => .error .invalidMpegVersion
        | some mpeg_version =>
          match rskip r 2 with
          | .error e => .error e
          | .ok r =>
            match rread r 1 with
            | .error e => .error e
            | .ok (vProt, r) =>
              match rread r 2 with
              | .error e => .error e
              | .ok (vProf, r) =>
                match profileOfCode vProf with
                | none => .error .invalidProfile
                | some profile =>
                  match rread r 4 with
                  | .error e => .error e
                  | .ok (sampling_frequency_index, r) =>
                    match rskip r 1 with
                    | .error e => .error e
                    | .ok r =>
                      match rskip r 3 with
                      | .error e => .error e
                      | .ok r =>
                        match rskip r 1 with
                        | .error e => .error e
                        | .ok r =>
                          match rskip r 1 with
                          | .error e => .error e
                          | .ok r =>
                            match rskip r 1 with
                            | .error e => .error e
                            | .ok r =>
                              match rskip r 1 with
                              | .error e => .error e
                              | .ok r =>
                                match rread r 13 with
                                | .error e => .error e
                                | .ok (frame_length, r) =>
                                  match rskip r 11 with
                                  | .error e => .error e
                                  | .ok r =>
                                    match rskip r 2 with
                                    | .error e => .error e
                                    | .ok _ =>
                                      .ok ⟨syncword, mpeg_version,
                                        vProt == 1, profile,
                                        sampling_frequency_index,
                                        frame_length⟩

/-- `peek_header` with each failure labelled by its exit site, paired
with the file state the call leaves behind: `read_exact` of 7 bytes,
the bitfield decode, and — on the success path only — the seek back by
`-7` to the header start. -/
def peek_header_run (st : FileSt) : Except DecodeReason ADTSHeader × FileSt :=
  match read_exact st ADTS_HDR_MIN_LEN with
  | none => (.error .ioFailure, st)
  | some (buffer, st1) =>
    match decode_fields buffer with
    | .error e => (.error e, st1)
    | .ok hdr =>
      match seekCur st1 (-(ADTS_HDR_MIN_LEN : Int)) with
      | none => (.error .ioFailure, st1)
      | some (_, st2) => (.ok hdr, st2)

/-- `peek_header` as the caller sees it: all failures collapsed to
`none` (the Rust function returns `Option<ADTSHeader>`), together with
the file state after the call. -/
def peek_header (st : FileSt) : Option ADTSHeader × FileSt :=
  ((peek_header_run st).1.toOption, (peek_header_run st).2)

/-- One iteration of the frame-walking loop in `main`: peek a header
(exiting the process on failure, modelled `none`), obtain the current
position via `seek(Current(0))`, then advance by `frame_length` bytes.
Returns the header, the position it was reported at, and the file state
the next iteration starts from. -/
def walk_step (st : FileSt) : Option (ADTSHeader × Nat × FileSt) :=
  match peek_header st with
  | (none, _) => none
  | (some header, st1) =>
    match seekCur st1 0 with
    | none => none
    | some (cur_pos, st2) =>
      match seekCur st2 (header.frame_length : Int) with
      | none => none
      | some (_, st3) => some (header, cur_pos, st3)

/-- Modelled from the spec: the synthetic 7-byte header construction of
the round-trip property, placing the chosen field values at the layout's
fixed bit positions — syncword `0xFFF` (12), mpeg_version (1),
layer (2, zero), protection_absent (1), audio_object_type (2),
sampling_frequency_index (4), 8 ignored bits (zero), frame_length (13),
buffer_fullness (11, zero), raw_data_block_count (2, zero). -/
def encode_header (ver prot prof sfi flen : Nat) : List Nat :=
  [ 0xFF,
    0xF0 + ver % 2 * 8 + prot % 2,
    prof % 4 * 64 + sfi % 16 * 4,
    flen / 2048 % 4,
    flen / 8 % 256,
    flen % 8 * 32,
    0 ]

/-! ### Basic lemmas about the bit reader and the decoder -/

theorem readBits_lt (buf : List Nat) (s w : Nat) : readBits buf s w < 2 ^ w :=
  Nat.mod_lt _ (Nat.pos_pow_of_pos w (by omega))

theorem mpegOfCode_isSome (v : Nat) (h : v < 2) : ∃ m, mpegOfCode v = some m := by
  interval_cases v
  · exact ⟨.MPEG4, rfl⟩
  · exact ⟨.MPEG2, rfl⟩

theorem profileOfCode_isSome (v : Nat) (h : v < 4) :
    ∃ p, profileOfCode v = some p ∧
      (p = .AAC_MAIN ∨ p = .AAC_LC ∨ p = .AAC_SSR ∨ p = .AAC_LTP) := by
  interval_cases v
  · exact ⟨.AAC_MAIN, rfl, by simp⟩
  · exact ⟨.AAC_LC, rfl, by simp⟩
  · exact ⟨.AAC_SSR, rfl, by simp⟩
  · exact ⟨.AAC_LTP, rfl, by simp⟩

/-- Normal form of the bitfield decode on a 7-byte buffer whose
syncword check passes: it succeeds and returns the fields at their
layout offsets. -/
theorem decode_fields_ok (buffer : List Nat) (m : MPEGVersion)
    (p : MPEGAudioObjectType) (h7 : buffer.length = 7)
    (hs : readBits buffer 0 12 = 0xFFF)
    (hm : mpegOfCode (readBits buffer 12 1) = some m)
    (hp : profileOfCode (readBits buffer 16 2) = some p) :
    decode_fields buffer =
      .ok ⟨0xFFF, m, readBits buffer 15 1 == 1, p,
        readBits buffer 18 4, readBits buffer 30 13⟩ := by
  simp [decode_fields, rread, rskip, BitReader.read, BitReader.skip, h7, hs, hm, hp]

/-- Normal form of the bitfield decode on a 7-byte buffer whose
syncword check fails: the decode stops at the syncword exit site. -/
theorem decode_fields_badsync (buffer : List Nat) (h7 : buffer.length = 7)
    (hs : readBits buffer 0 12 ≠ 0xFFF) :
    decode_fields buffer = .error .invalidSyncword := by
  simp [decode_fields, rread, BitReader.read, h7, hs]

theorem read_exact_eq_some (st : FileSt) (n : Nat) (buffer : List Nat)
    (st1 : FileSt) (h : read_exact st n = some (buffer, st1)) :
    st.pos + n ≤ st.data.length ∧ buffer = (st.data.drop st.pos).take n ∧
      st1 = ⟨st.data, st.pos + n⟩ := by
  unfold read_exact at h
  split at h
  · simp only [Option.some.injEq, Prod.mk.injEq] at h
    exact ⟨by assumption, h.1.symm, h.2.symm⟩
  · exact absurd h (by simp)

/-- Shape of a successful `peek_header` call: the 7-byte read was in
bounds, the bitfield decode of those 7 bytes succeeded, and the file is
left exactly where it started. -/
theorem peek_header_run_ok (st : FileSt) (h : ADTSHeader) (st2 : FileSt)
    (hp : peek_header_run st = (.ok h, st2)) :
    st.pos + 7 ≤ st.data.length ∧
      decode_fields ((st.data.drop st.pos).take 7) = .ok h ∧ st2 = st := by
  unfold peek_header_run at hp
  split at hp
  · exact absurd hp (by simp)
  · rename_i buffer st1 hre
    obtain ⟨hle, hbuf, hst1⟩ := read_exact_eq_some st _ buffer st1 hre
    split at hp
    · exact absurd hp (by simp)
    · rename_i hdr hdec
      split at hp
      · exact absurd hp (by simp)
      · rename_i q st3 hsk
        simp only [Except.ok.injEq, Prod.mk.injEq] at hp
        refine ⟨by simpa [ADTS_HDR_MIN_LEN] using hle, ?_, ?_⟩
        · rw [hp.1] at hdec
          simpa [ADTS_HDR_MIN_LEN, hbuf] using hdec
        · rw [← hp.2]
          unfold seekCur at hsk
          rw [hst1] at hsk
          dsimp only at hsk
          rw [if_neg (by push_cast; omega)] at hsk
          simp only [Option.some.injEq, Prod.mk.injEq] at hsk
          rw [← hsk.2]
          cases st
          simp only [FileSt.mk.injEq, true_and]
          simp only [ADTS_HDR_MIN_LEN]
          omega

theorem peek_header_some (st : FileSt) (h : ADTSHeader) (st2 : FileSt)
    (hp : peek_header st = (some h, st2)) :
    st.pos + 7 ≤ st.data.length ∧
      decode_fields ((st.data.drop st.pos).take 7) = .ok h ∧ st2 = st := by
  unfold peek_header at hp
  simp only [Prod.mk.injEq] at hp
  rcases hr : peek_header_run st with ⟨res, stf⟩
  rw [hr] at hp
  obtain ⟨hp1, hp2⟩ := hp
  dsimp only at hp1 hp2
  cases res with
  | error e => simp [Except.toOption] at hp1
  | ok hdr =>
    simp only [Except.toOption, Option.some.injEq] at hp1
    subst hp1
    subst hp2
    exact peek_header_run_ok st hdr stf hr

/-! ### The synthetic header construction -/

theorem encode_header_length (ver prot prof sfi flen : Nat) :
    (encode_header ver prot prof sfi flen).length = 7 := rfl

theorem readBits_eq7 (buf : List Nat) (h7 : buf.length = 7) (s w : Nat) :
    readBits buf s w = bufNum buf / 2 ^ (56 - s - w) % 2 ^ w := by
  simp [readBits, h7]

/-- The big-endian value of a synthetic header is the concatenation of
its fields at their layout bit weights. -/
theorem bufNum_encode (ver prot prof sfi flen : Nat) (hv : ver < 2)
    (hp : prot < 2) (hf : prof < 4) (hs : sfi < 16) (hl : flen < 8192) :
    bufNum (encode_header ver prot prof sfi flen) =
      0xFFF * 2 ^ 44 + ver * 2 ^ 43 + prot * 2 ^ 40 + prof * 2 ^ 38 +
        sfi * 2 ^ 34 + flen * 2 ^ 13 := by
  simp only [encode_header, bufNum, List.foldl_cons, List.foldl_nil]
  norm_num
  omega

/-- C3: Round-trip — for every choice of field values within their
declared bit widths (syncword `0xFFF`, 1-bit mpeg_version, 1-bit
protection_absent, 2-bit audio_object_type (every 2-bit code maps to a
recognized variant), 4-bit sampling_frequency_index, 13-bit
frame_length), encoding them into a 7-byte buffer at the layout's fixed
bit positions and decoding that buffer with `peek_header` succeeds,
leaves the file where it started, and recovers exactly those field
values (the enum fields through the source's code-to-variant maps). -/
theorem c3_header_roundtrip (ver prot prof sfi flen : Nat) (hv : ver < 2)
    (hpr : prot < 2) (hf : prof < 4) (hsf : sfi < 16) (hl : flen < 8192) :
    ∃ h : ADTSHeader,
      peek_header ⟨encode_header ver prot prof sfi flen, 0⟩ =
        (some h, ⟨encode_header ver prot prof sfi flen, 0⟩) ∧
      h.syncword = 0xFFF ∧ mpegOfCode ver = some h.id ∧
      h.protection_absent = (prot == 1) ∧
      profileOfCode prof = some h.profile ∧
      h.sampling_frequency_index = sfi ∧ h.frame_length = flen := by
  have hlen := encode_header_length ver prot prof sfi flen
  have hN := bufNum_encode ver prot prof sfi flen hv hpr hf hsf hl
  have hsync : readBits (encode_header ver prot prof sfi flen) 0 12 = 0xFFF := by
    rw [readBits_eq7 _ hlen, hN]; norm_num; omega
  have hver : readBits (encode_header ver prot prof sfi flen) 12 1 = ver := by
    rw [readBits_eq7 _ hlen, hN]; norm_num; omega
  have hprot : readBits (encode_header ver prot prof sfi flen) 15 1 = prot := by
    rw [readBits_eq7 _ hlen, hN]; norm_num; omega
  have hprof : readBits (encode_header ver prot prof sfi flen) 16 2 = prof := by
    rw [readBits_eq7 _ hlen, hN]; norm_num; omega
  have hsfi : readBits (encode_header ver prot prof sfi flen) 18 4 = sfi := by
    rw [readBits_eq7 _ hlen, hN]; norm_num; omega
  have hflen : readBits (encode_header ver prot prof sfi flen) 30 13 = flen := by
    rw [readBits_eq7 _ hlen, hN]; norm_num; omega
  obtain ⟨m, hm⟩ := mpegOfCode_isSome ver hv
  obtain ⟨p, hpf, _⟩ := profileOfCode_isSome prof hf
  have hdec : decode_fields (encode_header ver prot prof sfi flen) =
      .ok ⟨0xFFF, m, prot == 1, p, sfi, flen⟩ := by
    have hd := decode_fields_ok (encode_header ver prot prof sfi flen) m p hlen
      hsync (by rw [hver]; exact hm) (by rw [hprof]; exact hpf)
    rw [hprot, hsfi, hflen] at hd
    exact hd
  have htake : ((encode_header ver prot prof sfi flen).drop 0).take 7 =
      encode_header ver prot prof sfi flen := by
    rw [List.drop_zero, ← hlen, List.take_length]
  have hre : read_exact ⟨encode_header ver prot prof sfi flen, 0⟩ ADTS_HDR_MIN_LEN =
      some (encode_header ver prot prof sfi flen,
        ⟨encode_header ver prot prof sfi flen, 7⟩) := by
    simp [read_exact, ADTS_HDR_MIN_LEN, hlen, htake]
  have hsk : seekCur ⟨encode_header ver prot prof sfi flen, 7⟩
      (-(ADTS_HDR_MIN_LEN : Int)) =
      some (0, ⟨encode_header ver prot prof sfi flen, 0⟩) := by
    norm_num [seekCur, ADTS_HDR_MIN_LEN]
  have hrun : peek_header_run ⟨encode_header ver prot prof sfi flen, 0⟩ =
      (.ok ⟨0xFFF, m, prot == 1, p, sfi, flen⟩,
        ⟨encode_header ver prot prof sfi flen, 0⟩) := by
    unfold peek_header_run
    simp only [hre, hdec, hsk]
  refine ⟨⟨0xFFF, m, prot == 1, p, sfi, flen⟩, ?_, rfl, hm, rfl, hpf, rfl, rfl⟩
  unfold peek_header
  rw [hrun]
  rfl

/-! ### Seek lemmas -/

theorem seekCur_nat (st : FileSt) (k : Nat) :
    seekCur st (k : Int) = some (st.pos + k, ⟨st.data, st.pos + k⟩) := by
  simp only [seekCur]
  rw [if_neg (by omega)]
  have h : ((st.pos : Int) + (k : Int)).toNat = st.pos + k := by omega
  rw [h]

theorem seekCur_zero (st : FileSt) : seekCur st 0 = some (st.pos, st) := by
  have h := seekCur_nat st 0
  simpa using h

theorem seekCur_back (st : FileSt) (k : Nat) (hk : k ≤ st.pos) :
    seekCur st (-(k : Int)) = some (st.pos - k, ⟨st.data, st.pos - k⟩) := by
  simp only [seekCur]
  rw [if_neg (by omega)]
  have h : ((st.pos : Int) + -(k : Int)).toNat = st.pos - k := by omega
  rw [h]

/-- Converse direction of the success shape: if the 7-byte read is in
bounds and the bitfield decode of the bytes at the cursor succeeds,
`peek_header` returns that header and restores the position. -/
theorem peek_header_of_decode_ok (st : FileSt) (hdr : ADTSHeader)
    (hle : st.pos + 7 ≤ st.data.length)
    (hd : decode_fields ((st.data.drop st.pos).take 7) = .ok hdr) :
    peek_header st = (some hdr, st) := by
  have hre : read_exact st ADTS_HDR_MIN_LEN =
      some ((st.data.drop st.pos).take 7, ⟨st.data, st.pos + 7⟩) := by
    simp [read_exact, ADTS_HDR_MIN_LEN, hle]
  have hsk : seekCur (⟨st.data, st.pos + 7⟩ : FileSt) (-(ADTS_HDR_MIN_LEN : Int)) =
      some (st.pos, ⟨st.data, st.pos⟩) := by
    have h := seekCur_back ⟨st.data, st.pos + 7⟩ 7 (by simp)
    simpa [ADTS_HDR_MIN_LEN] using h
  have hrun : peek_header_run st = (.ok hdr, ⟨st.data, st.pos⟩) := by
    unfold peek_header_run
    simp only [hre, hd, hsk]
  unfold peek_header
  rw [hrun]
  cases st
  rfl

/-- Full characterization of the bitfield decode on a 7-byte buffer:
the only check that can reject is the syncword check, and on success
the fields are the bits at the layout offsets.  The mpeg-version and
profile codes are 1 and 2 bits wide, so their `match` arms for larger
codes are unreachable. -/
theorem decode_fields_char (buffer : List Nat) (h7 : buffer.length = 7) :
    decode_fields buffer =
      if readBits buffer 0 12 = 0xFFF then
        .ok ⟨0xFFF,
          if readBits buffer 12 1 = 0 then .MPEG4 else .MPEG2,
          readBits buffer 15 1 == 1,
          if readBits buffer 16 2 = 0 then .AAC_MAIN
          else if readBits buffer 16 2 = 1 then .AAC_LC
          else if readBits buffer 16 2 = 2 then .AAC_SSR
          else .AAC_LTP,
          readBits buffer 18 4, readBits buffer 30 13⟩
      else Except.error .invalidSyncword := by
  by_cases hs : readBits buffer 0 12 = 0xFFF
  · rw [if_pos hs]
    have h12 : readBits buffer 12 1 < 2 := readBits_lt buffer 12 1
    have h16 : readBits buffer 16 2 < 4 := readBits_lt buffer 16 2
    have hm2 : readBits buffer 12 1 = 0 ∨ readBits buffer 12 1 = 1 := by omega
    have hp4 : readBits buffer 16 2 = 0 ∨ readBits buffer 16 2 = 1 ∨
        readBits buffer 16 2 = 2 ∨ readBits buffer 16 2 = 3 := by omega
    rcases hm2 with hm | hm <;> rcases hp4 with hp | hp | hp | hp <;>
      rw [decode_fields_ok buffer _ _ h7 hs (by rw [hm]; rfl) (by rw [hp]; rfl)] <;>
      simp [hm, hp]
  · rw [if_neg hs]
    exact decode_fields_badsync buffer h7 hs

/-! ### Claim theorems -/

/-- C4: `peek_header` is idempotent and non-consuming — whenever a
decode succeeds, the file position after the call equals the position
before it, and a second call at that same state returns the identical
header and again leaves the state unchanged. -/
theorem c4_peek_idempotent (st : FileSt) (h : ADTSHeader) (st2 : FileSt)
    (hp : peek_header st = (some h, st2)) :
    st2 = st ∧ peek_header st2 = (some h, st2) := by
  obtain ⟨-, -, hst⟩ := peek_header_some st h st2 hp
  subst hst
  exact ⟨rfl, hp⟩

/-- C7: whenever `peek_header` succeeds, one iteration of the frame
walker in `main` reports the header at the header's start offset and
advances the stream to exactly that offset plus `frame_length`, so the
next peek reads from `header_start + frame_length`. -/
theorem c7_walker_advance (st : FileSt) (h : ADTSHeader) (st2 : FileSt)
    (hp : peek_header st = (some h, st2)) :
    walk_step st = some (h, st.pos, ⟨st.data, st.pos + h.frame_length⟩) := by
  obtain ⟨-, -, hst⟩ := peek_header_some st h st2 hp
  subst hst
  unfold walk_step
  rw [hp]
  simp only [seekCur_zero, seekCur_nat]

/-- C10: `peek_header` restores the position only on success — for
every input where the 7-byte read is in bounds but the call returns no
header, the file is left exactly 7 bytes past the header start. -/
theorem c10_error_position (st : FileSt) (hle : st.pos + 7 ≤ st.data.length)
    (hn : (peek_header st).1 = none) :
    (peek_header st).2 = ⟨st.data, st.pos + 7⟩ := by
  have hre : read_exact st ADTS_HDR_MIN_LEN =
      some ((st.data.drop st.pos).take 7, ⟨st.data, st.pos + 7⟩) := by
    simp [read_exact, ADTS_HDR_MIN_LEN, hle]
  have hsk : seekCur (⟨st.data, st.pos + 7⟩ : FileSt) (-(ADTS_HDR_MIN_LEN : Int)) =
      some (st.pos, ⟨st.data, st.pos⟩) := by
    have h := seekCur_back ⟨st.data, st.pos + 7⟩ 7 (by simp)
    simpa [ADTS_HDR_MIN_LEN] using h
  unfold peek_header peek_header_run at hn ⊢
  simp only [hre] at hn ⊢
  rcases hd : decode_fields ((st.data.drop st.pos).take 7) with e | hdr
  · simp [hd]
  · simp only [hd, hsk] at hn
    simp [Except.toOption] at hn

/-- C2 counterexample: a 7-byte buffer with syncword `0xFFF`,
`protection_absent` set, and `frame_length = 5` — below the 7-byte
minimum header size — is NOT rejected: `peek_header` decodes it
successfully and returns the header, `frame_length = 5` included. -/
theorem c2_counterexample :
    peek_header ⟨[0xFF, 0xF1, 0x50, 0x00, 0x00, 0xA0, 0x00], 0⟩ =
      (some ⟨0xFFF, .MPEG4, true, .AAC_LC, 4, 5⟩,
        ⟨[0xFF, 0xF1, 0x50, 0x00, 0x00, 0xA0, 0x00], 0⟩) ∧
    (5 : Nat) < 7 := by
  exact ⟨rfl, by norm_num⟩

/-- C2 amended: `peek_header` performs no `frame_length` validation —
for every in-bounds 7-byte buffer whose syncword is `0xFFF`, even when
the decoded `frame_length` is below the applicable minimum header size
(7 bytes when the protection bit is set, 9 otherwise), the decode
succeeds and returns the header carrying that `frame_length`. -/
theorem c2_no_frame_length_validation (st : FileSt)
    (hle : st.pos + 7 ≤ st.data.length)
    (hsync : readBits ((st.data.drop st.pos).take 7) 0 12 = 0xFFF)
    (_hsmall : readBits ((st.data.drop st.pos).take 7) 30 13 <
      (if readBits ((st.data.drop st.pos).take 7) 15 1 = 1 then 7 else 9)) :
    ∃ h : ADTSHeader, peek_header st = (some h, st) ∧
      h.frame_length = readBits ((st.data.drop st.pos).take 7) 30 13 := by
  have h7 : ((st.data.drop st.pos).take 7).length = 7 := by
    rw [List.length_take, List.length_drop]
    omega
  have hchar := decode_fields_char _ h7
  rw [if_pos hsync] at hchar
  exact ⟨_, peek_header_of_decode_ok st _ hle hchar, rfl⟩

/-- C6: for every in-bounds 7-byte buffer whose first 12 bits are not
`0xFFF`, `peek_header` stops at the syncword check (the
`invalidSyncword` exit site) and returns no header.  The parenthetical
case of the claim — a buffer passing the scanner's 2-byte predicate
with a syncword other than `0xFFF` — is vacuous, since that predicate
pins the first 12 bits to exactly `0xFFF`. -/
theorem c6_invalid_syncword (st : FileSt)
    (hle : st.pos + 7 ≤ st.data.length)
    (hsync : readBits ((st.data.drop st.pos).take 7) 0 12 ≠ 0xFFF) :
    (peek_header_run st).1 = .error .invalidSyncword ∧
      (peek_header st).1 = none := by
  have h7 : ((st.data.drop st.pos).take 7).length = 7 := by
    rw [List.length_take, List.length_drop]
    omega
  have hre : read_exact st ADTS_HDR_MIN_LEN =
      some ((st.data.drop st.pos).take 7, ⟨st.data, st.pos + 7⟩) := by
    simp [read_exact, ADTS_HDR_MIN_LEN, hle]
  have hd := decode_fields_badsync _ h7 hsync
  have hrun : peek_header_run st = (.error .invalidSyncword, ⟨st.data, st.pos + 7⟩) := by
    unfold peek_header_run
    simp only [hre, hd]
  constructor
  · rw [hrun]
  · unfold peek_header
    rw [hrun]
    rfl

/-- C9: the profile field is read as exactly 2 bits, so its value is
always in `{0, 1, 2, 3}` — the `match` arms for codes 4–7 and 31–33 and
the unrecognized-code failure arm are unreachable.  For every file
state, `peek_header` never fails at the profile exit site, and every
header it returns carries one of `AAC_MAIN`, `AAC_LC`, `AAC_SSR`,
`AAC_LTP`. -/
theorem c9_profile_two_bits (st : FileSt) :
    (peek_header_run st).1 ≠ Except.error .invalidProfile ∧
      ∀ h : ADTSHeader, (peek_header st).1 = some h →
        h.profile = .AAC_MAIN ∨ h.profile = .AAC_LC ∨
        h.profile = .AAC_SSR ∨ h.profile = .AAC_LTP := by
  constructor
  · unfold peek_header_run
    rcases hre : read_exact st ADTS_HDR_MIN_LEN with _ | ⟨buffer, st1⟩
    · simp
    · obtain ⟨hle, hbuf, -⟩ := read_exact_eq_some st _ buffer st1 hre
      have h7 : buffer.length = 7 := by
        rw [hbuf, List.length_take, List.length_drop]
        simp only [ADTS_HDR_MIN_LEN] at hle ⊢
        omega
      simp only [hre]
      rw [decode_fields_char buffer h7]
      by_cases hs : readBits buffer 0 12 = 0xFFF
      · rw [if_pos hs]
        rcases hsk : seekCur st1 (-(ADTS_HDR_MIN_LEN : Int)) with _ | ⟨q, st2⟩ <;>
          simp [hsk]
      · rw [if_neg hs]
        simp
  · intro h hx
    have hp : peek_header st = (some h, (peek_header st).2) := by
      rw [← hx]
    obtain ⟨hle, hd, -⟩ := peek_header_some st h _ hp
    have h7 : ((st.data.drop st.pos).take 7).length = 7 := by
      rw [List.length_take, List.length_drop]
      omega
    rw [decode_fields_char _ h7] at hd
    by_cases hs : readBits ((st.data.drop st.pos).take 7) 0 12 = 0xFFF
    · rw [if_pos hs] at hd
      simp only [Except.ok.injEq] at hd
      subst hd
      dsimp only
      split
      · simp
      · split
        · simp
        · split <;> simp
    · rw [if_neg hs] at hd
      exact absurd hd (by simp)

/-- C8 counterexample: the failure kinds the claim calls distinct
coincide.  For the decoder, a short read (an I/O failure: the empty
stream) and an invalid syncword (a 7-byte buffer starting `0xFF 0xE1`)
produce the identical caller-observable result `none`.  For the
scanner, a short read (3 bytes) and exhausting the stream without a
match (9 zero bytes: the first window reads fine and has no match, the
next read hits end-of-stream) produce the identical result. -/
theorem c8_counterexample :
    (peek_header ⟨[], 0⟩).1 =
      (peek_header ⟨[0xFF, 0xE1, 0x50, 0x00, 0x00, 0xA0, 0x00], 0⟩).1 ∧
    seek_startcode ⟨[0, 0, 0], 0⟩ =
      seek_startcode ⟨[0, 0, 0, 0, 0, 0, 0, 0, 0], 0⟩ := by
  exact ⟨rfl, rfl⟩

/-- C8 amended: failures are NOT reported as distinct kinds.  The
scanner's only failure value is the single io error (end-of-stream
exhaustion without a match surfaces as the same `read_exact` error as
any short read), and the decoder collapses every failure — short read,
invalid syncword, and all other exit sites — into the single value
`none`, so no failure kind is observable by the caller. -/
theorem c8_failures_undifferentiated (s1 s2 s3 : FileSt) (e : IOErr)
    (h1 : (peek_header s1).1 = none) (h2 : (peek_header s2).1 = none)
    (h3 : seek_startcode s3 = .error e) :
    (peek_header s1).1 = (peek_header s2).1 ∧ e = .ioErr := by
  refine ⟨h1.trans h2.symm, ?_⟩
  cases e
  rfl

/-- The concrete stream refuting C1: arbitrary non-matching noise
(8 zero bytes), then the 2-byte sync pattern `0xFF 0xF0` first
occurring at offset 8, then more zero bytes. -/
def c1_data : List Nat :=
  [0, 0, 0, 0, 0, 0, 0, 0, 0xFF, 0xF0, 0, 0, 0, 0, 0, 0, 0, 0, 0, 0, 0, 0, 0, 0, 0, 0, 0, 0]

/-- C1: refuted.  In `c1_data` the sync pattern first occurs at offset
`k = 8` (no pair before it matches), yet the scanner does not stop
there returning 8 — it runs to end-of-stream and fails.  The first
window covers bytes 0–8 and checks pair positions 0–7 only; because
`read_exact` already moved the cursor to the window's end, the
`seek(Current(9 - 4))` starts the next window at offset 14, so byte 8
is never examined as a first byte of the pattern. -/
theorem c1_scanner_misses_sync :
    (c1_data.getD 8 0 = 0xFF ∧ c1_data.getD 9 0 &&& 0xF0 = 0xF0 ∧
      (∀ i : Nat, i < 8 →
        ¬(c1_data.getD i 0 = 0xFF ∧ c1_data.getD (i + 1) 0 &&& 0xF0 = 0xF0))) ∧
    seek_startcode ⟨c1_data, 0⟩ = .error .ioErr := by
  exact ⟨⟨rfl, rfl, by decide⟩, rfl⟩

/-- C5: refuted.  When a window scan finds no match, the next window
does not begin 5 bytes after the current window's start: the read left
the cursor at `start + 9`, so the `seek(Current(9 - 4))` puts the next
window's start at `start + 14`.  The windows share no overlap — bytes
`start + 9 .. start + 13` never appear in any window at all. -/
theorem c5_next_window_at_14 (fuel : Nat) (st : FileSt) (buffer : List Nat)
    (st1 : FileSt) (hre : read_exact st 9 = some (buffer, st1))
    (hnm : find_startcode buffer = none) :
    seek_startcode_go (fuel + 1) st = seek_startcode_go fuel ⟨st.data, st.pos + 14⟩ := by
  obtain ⟨hle, hbuf, hst1⟩ := read_exact_eq_some st 9 buffer st1 hre
  have hre9 : read_exact st ADTS_HDR_MAX_LEN = some (buffer, st1) := hre
  have hsk : seekCur st1 ((ADTS_HDR_MAX_LEN : Int) - 4) =
      some (st.pos + 14, ⟨st.data, st.pos + 14⟩) := by
    rw [hst1]
    have h := seekCur_nat ⟨st.data, st.pos + 9⟩ 5
    have hc : ((5 : Nat) : Int) = (ADTS_HDR_MAX_LEN : Int) - 4 := by
      norm_num [ADTS_HDR_MAX_LEN]
    rw [hc] at h
    simpa [Nat.add_assoc] using h
  unfold seek_startcode_go
  simp only [hre9, hnm, hsk]
  cases fuel <;> rfl

/-! ### Witnesses -/

/-- Witness for C3 at `ver = 1, prot = 0, prof = 2, sfi = 7,
flen = 100`. -/
theorem c3_witness :
    ∃ h : ADTSHeader,
      peek_header ⟨encode_header 1 0 2 7 100, 0⟩ =
        (some h, ⟨encode_header 1 0 2 7 100, 0⟩) ∧
      h.syncword = 0xFFF ∧ mpegOfCode 1 = some h.id ∧
      h.protection_absent = (0 == 1) ∧
      profileOfCode 2 = some h.profile ∧
      h.sampling_frequency_index = 7 ∧ h.frame_length = 100 :=
  c3_header_roundtrip 1 0 2 7 100 (by decide) (by decide) (by decide)
    (by decide) (by decide)

/-- Witness for C4 on a concrete valid header buffer. -/
theorem c4_witness :
    (⟨[0xFF, 0xF1, 0x50, 0x80, 0x43, 0xFF, 0x00], 0⟩ : FileSt) =
        ⟨[0xFF, 0xF1, 0x50, 0x80, 0x43, 0xFF, 0x00], 0⟩ ∧
      peek_header ⟨[0xFF, 0xF1, 0x50, 0x80, 0x43, 0xFF, 0x00], 0⟩ =
        (some ⟨0xFFF, .MPEG4, true, .AAC_LC, 4, 543⟩,
          ⟨[0xFF, 0xF1, 0x50, 0x80, 0x43, 0xFF, 0x00], 0⟩) :=
  c4_peek_idempotent ⟨[0xFF, 0xF1, 0x50, 0x80, 0x43, 0xFF, 0x00], 0⟩
    ⟨0xFFF, .MPEG4, true, .AAC_LC, 4, 543⟩
    ⟨[0xFF, 0xF1, 0x50, 0x80, 0x43, 0xFF, 0x00], 0⟩ rfl

/-- Witness for C7 on the spec's end-to-end example bytes: the header
starts at offset 1 with `frame_length = 543`, and the walker advances
to `1 + 543 = 544`. -/
theorem c7_witness :
    walk_step ⟨[0x00, 0xFF, 0xF1, 0x50, 0x80, 0x43, 0xFF, 0x00], 1⟩ =
      some (⟨0xFFF, .MPEG4, true, .AAC_LC, 4, 543⟩, 1,
        ⟨[0x00, 0xFF, 0xF1, 0x50, 0x80, 0x43, 0xFF, 0x00], 544⟩) :=
  c7_walker_advance ⟨[0x00, 0xFF, 0xF1, 0x50, 0x80, 0x43, 0xFF, 0x00], 1⟩
    ⟨0xFFF, .MPEG4, true, .AAC_LC, 4, 543⟩
    ⟨[0x00, 0xFF, 0xF1, 0x50, 0x80, 0x43, 0xFF, 0x00], 1⟩ rfl

/-- Witness for C10 on a 7-byte buffer with a bad syncword: the failed
call leaves the position at 7. -/
theorem c10_witness :
    (peek_header ⟨[0xFF, 0xE1, 0x50, 0x00, 0x00, 0xA0, 0x00], 0⟩).2 =
      ⟨[0xFF, 0xE1, 0x50, 0x00, 0x00, 0xA0, 0x00], 7⟩ :=
  c10_error_position ⟨[0xFF, 0xE1, 0x50, 0x00, 0x00, 0xA0, 0x00], 0⟩
    (by decide) rfl

/-- Witness for the amended C2 on the `frame_length = 5` buffer. -/
theorem c2_witness :
    ∃ h : ADTSHeader,
      peek_header ⟨[0xFF, 0xF1, 0x50, 0x00, 0x00, 0xA0, 0x00], 0⟩ =
        (some h, ⟨[0xFF, 0xF1, 0x50, 0x00, 0x00, 0xA0, 0x00], 0⟩) ∧
      h.frame_length =
        readBits ((([0xFF, 0xF1, 0x50, 0x00, 0x00, 0xA0, 0x00] : List Nat).drop 0).take 7) 30 13 :=
  c2_no_frame_length_validation ⟨[0xFF, 0xF1, 0x50, 0x00, 0x00, 0xA0, 0x00], 0⟩
    (by decide) (by decide) (by decide)

/-- Witness for C6 on a buffer with syncword `0xFFE`. -/
theorem c6_witness :
    (peek_header_run ⟨[0xFF, 0xE1, 0x50, 0x00, 0x00, 0xA0, 0x00], 0⟩).1 =
        .error .invalidSyncword ∧
      (peek_header ⟨[0xFF, 0xE1, 0x50, 0x00, 0x00, 0xA0, 0x00], 0⟩).1 = none :=
  c6_invalid_syncword ⟨[0xFF, 0xE1, 0x50, 0x00, 0x00, 0xA0, 0x00], 0⟩
    (by decide) (by decide)

/-- Witness for C9 on a concrete valid header buffer whose profile
decodes to `AAC_LC`. -/
theorem c9_witness :
    (peek_header_run ⟨[0xFF, 0xF1, 0x50, 0x80, 0x43, 0xFF, 0x00], 0⟩).1 ≠
        Except.error .invalidProfile ∧
      ((⟨0xFFF, .MPEG4, true, .AAC_LC, 4, 543⟩ : ADTSHeader).profile = .AAC_MAIN ∨
        (⟨0xFFF, .MPEG4, true, .AAC_LC, 4, 543⟩ : ADTSHeader).profile = .AAC_LC ∨
        (⟨0xFFF, .MPEG4, true, .AAC_LC, 4, 543⟩ : ADTSHeader).profile = .AAC_SSR ∨
        (⟨0xFFF, .MPEG4, true, .AAC_LC, 4, 543⟩ : ADTSHeader).profile = .AAC_LTP) :=
  ⟨(c9_profile_two_bits ⟨[0xFF, 0xF1, 0x50, 0x80, 0x43, 0xFF, 0x00], 0⟩).1,
    (c9_profile_two_bits ⟨[0xFF, 0xF1, 0x50, 0x80, 0x43, 0xFF, 0x00], 0⟩).2
      ⟨0xFFF, .MPEG4, true, .AAC_LC, 4, 543⟩ rfl⟩

/-- Witness for the amended C8 at concrete failing states. -/
theorem c8_witness :
    (peek_header ⟨[], 0⟩).1 = (peek_header ⟨[0, 0, 0], 0⟩).1 ∧
      IOErr.ioErr = IOErr.ioErr :=
  c8_failures_undifferentiated ⟨[], 0⟩ ⟨[0, 0, 0], 0⟩ ⟨[], 0⟩ .ioErr rfl rfl rfl

/-- Witness for C5 on a 23-byte all-zero stream: the first window
starts at 0 and the next window starts at 14. -/
theorem c5_witness :
    seek_startcode_go 2 ⟨[0, 0, 0, 0, 0, 0, 0, 0, 0, 0, 0, 0, 0, 0, 0, 0, 0, 0, 0, 0, 0, 0, 0], 0⟩ =
      seek_startcode_go 1 ⟨[0, 0, 0, 0, 0, 0, 0, 0, 0, 0, 0, 0, 0, 0, 0, 0, 0, 0, 0, 0, 0, 0, 0], 14⟩ :=
  c5_next_window_at_14 1
    ⟨[0, 0, 0, 0, 0, 0, 0, 0, 0, 0, 0, 0, 0, 0, 0, 0, 0, 0, 0, 0, 0, 0, 0], 0⟩
    [0, 0, 0, 0, 0, 0, 0, 0, 0]
    ⟨[0, 0, 0, 0, 0, 0, 0, 0, 0, 0, 0, 0, 0, 0, 0, 0, 0, 0, 0, 0, 0, 0, 0], 9⟩
    rfl rfl

end StreamReader

